import Mathlib

/-!
Shallow embedding of `src/expense_tracker.py` (an expense tracker with a
JSON-file store).  Python float amounts are modelled as rationals (ℚ);
Python strings compare by code points, modelled by an explicit
lexicographic comparison on character lists.  Fallible Python calls
(`float` on a non-numeric string, attribute access on a non-dict) are
modelled with `Except`.
-/

namespace ExpenseTrackerModel

/-- One expense record: the dict with keys id, amount, category,
description and date built by `add_expense`. -/
structure Expense where
  id : Nat
  amount : ℚ
  category : String
  description : String
  date : String
deriving DecidableEq, Repr

/-- The in-memory store state: `self.expenses` and `self.categories`. -/
structure ExpenseTracker where
  expenses : List Expense
  categories : List String
deriving DecidableEq, Repr

/-- `DEFAULT_CATEGORIES` from the source. -/
def DEFAULT_CATEGORIES : List String :=
  ["Food & Dining", "Transportation", "Shopping", "Entertainment",
   "Bills & Utilities", "Health", "Travel", "Other"]

/-- Python exceptions that the modelled code can raise. -/
inductive PyError where
  | valueError
  | attributeError
deriving DecidableEq, Repr

/-- Python string comparison on character lists: elementwise by code
point, a strict proper initial segment being smaller. -/
def lexLe : List Char → List Char → Bool
  | [], _ => true
  | _ :: _, [] => false
  | a :: as, b :: bs => if a = b then lexLe as bs else decide (a.toNat < b.toNat)

/-- Python `<=` on strings (code-point lexicographic). -/
def pyStrLe (a b : String) : Bool := lexLe a.toList b.toList

/-- Value of a digit list read in base 10. -/
def digitsVal (cs : List Char) : Nat := cs.foldl (fun a c => a * 10 + (c.toNat - 48)) 0

/-- Strip leading and trailing whitespace from a character list. -/
def stripWS (cs : List Char) : List Char :=
  ((cs.dropWhile Char.isWhitespace).reverse.dropWhile Char.isWhitespace).reverse

/-- Models Python `float` applied to a string, for the decimal literal
forms (optional sign, digits, optional fraction, surrounding whitespace);
`none` models the `ValueError` raised on a non-numeric string. -/
def parseFloat (s : String) : Option ℚ :=
  let cs := stripWS s.toList
  let signed : ℚ × List Char :=
    match cs with
    | '-' :: r => (-1, r)
    | '+' :: r => (1, r)
    | r => (1, r)
  let intPart := signed.2.takeWhile Char.isDigit
  let rest := signed.2.dropWhile Char.isDigit
  match rest with
  | [] =>
    if intPart.isEmpty then none
    else some (signed.1 * digitsVal intPart)
  | '.' :: fr =>
    let fracPart := fr.takeWhile Char.isDigit
    let rest2 := fr.dropWhile Char.isDigit
    if rest2.isEmpty ∧ ¬(intPart.isEmpty ∧ fracPart.isEmpty) then
      some (signed.1 * ((digitsVal intPart : ℚ) +
        (digitsVal fracPart : ℚ) / (10 : ℚ) ^ fracPart.length))
    else none
  | _ => none

/-- The `amount` argument of `add_expense` as it arrives from Python:
either already a number or a string to be coerced. -/
inductive AmountArg where
  | ofNum (q : ℚ)
  | ofStr (s : String)
deriving DecidableEq, Repr

/-- Python `float(amount)` as used in `add_expense` and `update_expense`. -/
def pyFloat : AmountArg → Except PyError ℚ
  | .ofNum q => .ok q
  | .ofStr s =>
    match parseFloat s with
    | some q => .ok q
    | none => .error .valueError

/-- `ExpenseTracker.add_expense` after the `float` coercion succeeded:
`date` defaults to the current day, the new id is `len(self.expenses) + 1`,
the record is appended.  Returns the new state and the created record. -/
def add_expense (t : ExpenseTracker) (amount : ℚ) (category description : String)
    (date : Option String) (today : String) : ExpenseTracker × Expense :=
  let d := date.getD today
  let e : Expense :=
    { id := t.expenses.length + 1, amount := amount, category := category,
      description := description, date := d }
  (⟨t.expenses ++ [e], t.categories⟩, e)

/-- `ExpenseTracker.add_expense` including the `float(amount)` coercion,
which raises `ValueError` on a non-numeric string. -/
def add_expense_raw (t : ExpenseTracker) (amount : AmountArg)
    (category description : String) (date : Option String) (today : String) :
    Except PyError (ExpenseTracker × Expense) :=
  match pyFloat amount with
  | .ok q => .ok (add_expense t q category description date today)
  | .error e => .error e

/-- The loop of `ExpenseTracker.update_expense`: overwrite the four
mutable fields of the first record whose id matches and report `true`;
report `false` when none matches. -/
def updateLoop (eid : Nat) (a : ℚ) (c d dt : String) :
    List Expense → List Expense × Bool
  | [] => ([], false)
  | e :: rest =>
    if e.id = eid then
      ({ e with amount := a, category := c, description := d, date := dt } :: rest, true)
    else
      let r := updateLoop eid a c d dt rest
      (e :: r.1, r.2)

/-- `ExpenseTracker.update_expense`. -/
def update_expense (t : ExpenseTracker) (eid : Nat) (a : ℚ) (c d dt : String) :
    ExpenseTracker × Bool :=
  let r := updateLoop eid a c d dt t.expenses
  (⟨r.1, t.categories⟩, r.2)

/-- `ExpenseTracker.delete_expense`: keep the records whose id differs. -/
def delete_expense (t : ExpenseTracker) (eid : Nat) : ExpenseTracker :=
  ⟨t.expenses.filter (fun e => e.id != eid), t.categories⟩

/-- The first statement of `get_filtered_expenses`:
`if start_date: filtered = [e for e in filtered if e["date"] >= start_date]`.
A `none` argument is Python `None`; the empty string is falsy. -/
def applyStart (sd : Option String) (l : List Expense) : List Expense :=
  match sd with
  | some s => if s.isEmpty then l else l.filter (fun e => pyStrLe s e.date)
  | none => l

/-- The second statement of `get_filtered_expenses` (upper date bound). -/
def applyEnd (ed : Option String) (l : List Expense) : List Expense :=
  match ed with
  | some s => if s.isEmpty then l else l.filter (fun e => pyStrLe e.date s)
  | none => l

/-- The third statement of `get_filtered_expenses` (category membership);
the empty list is falsy. -/
def applyCats (cs : Option (List String)) (l : List Expense) : List Expense :=
  match cs with
  | some c => if c.isEmpty then l else l.filter (fun e => c.contains e.category)
  | none => l

/-- `ExpenseTracker.get_filtered_expenses`: the three optional filters
applied in sequence to a copy of the list. -/
def get_filtered_expenses (expenses : List Expense)
    (start_date end_date : Option String) (categories : Option (List String)) :
    List Expense :=
  applyCats categories (applyEnd end_date (applyStart start_date expenses))

/-- The summary dict returned by `get_summary`.  `by_category` keeps the
Python dict insertion order: first occurrence of each category. -/
structure Summary where
  total : ℚ
  by_category : List (String × ℚ)
  count : Nat
deriving DecidableEq, Repr

/-- One step of the `defaultdict(float)` accumulation:
`by_category[e["category"]] += e["amount"]`. -/
def bumpCategory : List (String × ℚ) → String → ℚ → List (String × ℚ)
  | [], c, a => [(c, a)]
  | (c0, a0) :: rest, c, a =>
    if c0 = c then (c0, a0 + a) :: rest
    else (c0, a0) :: bumpCategory rest c a

/-- `ExpenseTracker.get_summary`. -/
def get_summary (expenses : List Expense) : Summary :=
  { total := (expenses.map Expense.amount).sum
  , by_category := expenses.foldl (fun m e => bumpCategory m e.category e.amount) []
  , count := expenses.length }

/-- `ExpenseTracker.add_category`: append only when the name is truthy
(non-empty) and not already present; report whether it was added. -/
def add_category (t : ExpenseTracker) (category : String) : ExpenseTracker × Bool :=
  if category ≠ "" ∧ category ∉ t.categories then
    (⟨t.expenses, t.categories ++ [category]⟩, true)
  else
    (t, false)

/-- Decoded JSON values as returned by `json.load`. -/
inductive Json where
  | null
  | bool (b : Bool)
  | num (q : ℚ)
  | str (s : String)
  | arr (elems : List Json)
  | obj (fields : List (String × Json))

/-- The raw (not yet validated) store fields as Python objects; this is
what `load_data` assigns to `self.expenses` and `self.categories`. -/
structure RawState where
  expenses : Json
  categories : Json

/-- The state set up by `__init__` before `load_data` runs:
`self.expenses = []`, `self.categories = DEFAULT_CATEGORIES.copy()`. -/
def initRaw : RawState := ⟨.arr [], .arr (DEFAULT_CATEGORIES.map .str)⟩

/-- The observable states of the persisted file when `load_data` runs. -/
inductive FileState where
  | absent
  | ioError
  | parseError
  | content (j : Json)

/-- Python `dict.get(key, default)` on a decoded JSON object. -/
def jsonGet (fields : List (String × Json)) (k : String) (dflt : Json) : Json :=
  match fields.lookup k with
  | some v => v
  | none => dflt

/-- `ExpenseTracker.load_data`.  An absent file skips the body; an
`IOError` or a `json.JSONDecodeError` is caught and resets both fields;
`data.get` on a decoded value that is not a dict raises an uncaught
`AttributeError`, modelled as `Except.error`. -/
def load_data (t : RawState) (file : FileState) : Except PyError RawState :=
  match file with
  | .absent => .ok t
  | .ioError => .ok ⟨.arr [], .arr (DEFAULT_CATEGORIES.map .str)⟩
  | .parseError => .ok ⟨.arr [], .arr (DEFAULT_CATEGORIES.map .str)⟩
  | .content j =>
    match j with
    | .obj fields =>
      .ok ⟨jsonGet fields "expenses" (.arr []),
           jsonGet fields "categories" (.arr (DEFAULT_CATEGORIES.map .str))⟩
    | _ => .error .attributeError

/-! ### Calendar model for `get_date_range`

`datetime` dates are proleptic Gregorian; `weekday()` is 0 on Monday and
`date(1,1,1)` is a Monday; `timedelta(days=n)` subtraction steps the
calendar back `n` days. -/

/-- A calendar date (`datetime` value restricted to its date part). -/
structure Date where
  year : Nat
  month : Nat
  day : Nat
deriving DecidableEq, Repr

/-- Gregorian leap-year rule. -/
def isLeap (y : Nat) : Bool := (y % 4 == 0 && y % 100 != 0) || y % 400 == 0

/-- Length of a month. -/
def daysInMonth (y m : Nat) : Nat :=
  if m = 2 then (if isLeap y then 29 else 28)
  else if m = 4 ∨ m = 6 ∨ m = 9 ∨ m = 11 then 30
  else 31

/-- Length of a year. -/
def daysInYear (y : Nat) : Nat := if isLeap y then 366 else 365

/-- A date the `datetime` library can hold. -/
def Date.valid (d : Date) : Prop :=
  1 ≤ d.year ∧ 1 ≤ d.month ∧ d.month ≤ 12 ∧ 1 ≤ d.day ∧ d.day ≤ daysInMonth d.year d.month

instance (d : Date) : Decidable d.valid := by
  unfold Date.valid
  infer_instance

/-- The previous calendar day. -/
def predDate (d : Date) : Date :=
  if 2 ≤ d.day then ⟨d.year, d.month, d.day - 1⟩
  else if 2 ≤ d.month then ⟨d.year, d.month - 1, daysInMonth d.year (d.month - 1)⟩
  else ⟨d.year - 1, 12, 31⟩

/-- `today - timedelta(days=n)`. -/
def subDays (d : Date) : Nat → Date
  | 0 => d
  | n + 1 => subDays (predDate d) n

/-- Days in the months of year `y` strictly before month `m`. -/
def daysBeforeMonth (y m : Nat) : Nat :=
  ((List.range (m - 1)).map (fun i => daysInMonth y (i + 1))).sum

/-- Days in the years strictly before year `y` (year numbering starts at 1). -/
def daysBeforeYear : Nat → Nat
  | 0 => 0
  | 1 => 0
  | y + 2 => daysBeforeYear (y + 1) + daysInYear (y + 1)

/-- Proleptic-Gregorian ordinal; `⟨1, 1, 1⟩` has ordinal 1 as in `datetime`. -/
def toOrdinal (d : Date) : Nat := daysBeforeYear d.year + daysBeforeMonth d.year d.month + d.day

/-- `date.weekday()`: 0 on Monday; `date(1,1,1)` (ordinal 1) is a Monday. -/
def weekday (d : Date) : Nat := (toOrdinal d + 6) % 7

/-- Zero-padded decimal rendering of width `w`. -/
def padNum (n w : Nat) : String :=
  let s := toString n
  String.mk (List.replicate (w - s.length) '0') ++ s

/-- `strftime("%Y-%m-%d")`. -/
def fmtDate (d : Date) : String :=
  padNum d.year 4 ++ "-" ++ padNum d.month 2 ++ "-" ++ padNum d.day 2

/-- `ExpenseTrackerGUI.get_date_range`: resolves the selected timeframe
label and the current date to an optional start/end pair of date strings;
for `Custom` it returns the two entry strings literally, for `All Time`
both ends are `None` (the trailing `else` repeats the `This Month` case). -/
def get_date_range (timeframe : String) (today : Date)
    (customStart customEnd : String) : Option String × Option String :=
  if timeframe = "Custom" then (some customStart, some customEnd)
  else if timeframe = "This Week" then
    (some (fmtDate (subDays today (weekday today))), some (fmtDate today))
  else if timeframe = "This Month" then
    (some (fmtDate ⟨today.year, today.month, 1⟩), some (fmtDate today))
  else if timeframe = "Last Month" then
    let e := predDate ⟨today.year, today.month, 1⟩
    (some (fmtDate ⟨e.year, e.month, 1⟩), some (fmtDate e))
  else if timeframe = "This Year" then
    (some (fmtDate ⟨today.year, 1, 1⟩), some (fmtDate today))
  else if timeframe = "Last 3 Months" then
    (some (fmtDate (subDays today 90)), some (fmtDate today))
  else if timeframe = "Last 6 Months" then
    (some (fmtDate (subDays today 180)), some (fmtDate today))
  else if timeframe = "All Time" then (none, none)
  else (some (fmtDate ⟨today.year, today.month, 1⟩), some (fmtDate today))

/-! ### Report rows (percentage computation) -/

/-- `sorted(by_category.items(), key=..., reverse=True)`: stable sort by
amount, descending. -/
def sortByAmountDesc (l : List (String × ℚ)) : List (String × ℚ) :=
  l.mergeSort (fun a b => decide (b.2 ≤ a.2))

/-- The guarded percentage `amount / total * 100 if total > 0 else 0`. -/
def pctOf (amount total : ℚ) : ℚ := if 0 < total then amount / total * 100 else 0

/-- The `(category, amount, percentage)` rows produced by the loop in
`update_report_text`. -/
def report_text_rows (s : Summary) : List (String × ℚ × ℚ) :=
  (sortByAmountDesc s.by_category).map (fun p => (p.1, p.2, pctOf p.2 s.total))

/-- The `(category, amount, percentage)` body rows of the table in
`create_pdf_report` (same loop, same guard). -/
def pdf_table_rows (s : Summary) : List (String × ℚ × ℚ) :=
  (sortByAmountDesc s.by_category).map (fun p => (p.1, p.2, pctOf p.2 s.total))

/-! ### Spec-side predicates for the filter claims -/

/-- Lower date bound as actually applied: active only when the argument
is present and truthy (non-empty). -/
def keepStart (sd : Option String) (e : Expense) : Bool :=
  match sd with
  | some s => if s.isEmpty then true else pyStrLe s e.date
  | none => true

/-- Upper date bound as actually applied. -/
def keepEnd (ed : Option String) (e : Expense) : Bool :=
  match ed with
  | some s => if s.isEmpty then true else pyStrLe e.date s
  | none => true

/-- Category restriction as actually applied. -/
def keepCat (cs : Option (List String)) (e : Expense) : Bool :=
  match cs with
  | some c => if c.isEmpty then true else c.contains e.category
  | none => true

/-- Sum of the amounts of the records of one category. -/
def catSum (c : String) (es : List Expense) : ℚ :=
  ((es.filter (fun e => e.category == c)).map Expense.amount).sum

end ExpenseTrackerModel

namespace ExpenseTrackerModel

/-! ### Theorems for the claims -/

/-- Claim C1, counterexample: adding three records to an empty store
yields ids 1, 2, 3, but after deleting the record with id 2 the next add
yields id 3 (the store then holds two records with id 3), not id 4 as the
claim states: the count-based scheme does reuse ids. -/
theorem claim_C1_counterexample :
    (((add_expense ((add_expense ((add_expense ⟨[], DEFAULT_CATEGORIES⟩
        10 "Food & Dining" "a" (some "2024-01-01") "2024-01-01").1)
        20 "Travel" "b" (some "2024-01-02") "2024-01-02").1)
        30 "Health" "c" (some "2024-01-03") "2024-01-03").1).expenses.map Expense.id
      = [1, 2, 3]) ∧
    ((add_expense (delete_expense ((add_expense ((add_expense ((add_expense
        ⟨[], DEFAULT_CATEGORIES⟩
        10 "Food & Dining" "a" (some "2024-01-01") "2024-01-01").1)
        20 "Travel" "b" (some "2024-01-02") "2024-01-02").1)
        30 "Health" "c" (some "2024-01-03") "2024-01-03").1) 2)
        40 "Other" "d" (some "2024-01-04") "2024-01-04").2).id = 3 ∧ (3 ≠ 4) := by
  refine ⟨rfl, rfl, by decide⟩

/-- Claim C1 (amended): `add_expense` assigns the new id as the current
record count plus one; adding three records to an empty store yields ids
1, 2, 3, and after deleting the record with id 2 the next add yields id 3
(colliding with the surviving record of id 3): ids can be reused after a
deletion. -/
theorem claim_C1_id_assignment :
    (∀ (t : ExpenseTracker) (a : ℚ) (c d : String) (dt : Option String) (td : String),
      ((add_expense t a c d dt td).2).id = t.expenses.length + 1) ∧
    (((add_expense ((add_expense ((add_expense ⟨[], DEFAULT_CATEGORIES⟩
        10 "Food & Dining" "a" (some "2024-01-01") "2024-01-01").1)
        20 "Travel" "b" (some "2024-01-02") "2024-01-02").1)
        30 "Health" "c" (some "2024-01-03") "2024-01-03").1).expenses.map Expense.id
      = [1, 2, 3]) ∧
    ((add_expense (delete_expense ((add_expense ((add_expense ((add_expense
        ⟨[], DEFAULT_CATEGORIES⟩
        10 "Food & Dining" "a" (some "2024-01-01") "2024-01-01").1)
        20 "Travel" "b" (some "2024-01-02") "2024-01-02").1)
        30 "Health" "c" (some "2024-01-03") "2024-01-03").1) 2)
        40 "Other" "d" (some "2024-01-04") "2024-01-04").2).id = 3 := by
  exact ⟨fun t a c d dt td => rfl, rfl, rfl⟩

/-- Claim C2, counterexample: a persisted file whose content is valid
JSON but not an object (here the number 3) makes `load_data` raise an
uncaught `AttributeError` (from `data.get` on a non-dict), so load does
not leave the store in the default state and the claim that load never
raises is false. -/
theorem claim_C2_counterexample :
    load_data initRaw (.content (.num 3)) = .error .attributeError ∧
    ∀ r : RawState, load_data initRaw (.content (.num 3)) ≠ .ok r := by
  refine ⟨rfl, fun r h => Except.noConfusion h⟩

/-- Claim C2 (amended): when the file is absent `load_data` leaves the
prior (constructor-default) state; when reading raises an IO error or the
content fails to parse as JSON it silently resets to the empty expense
list and the default category set; when the content parses to a JSON
object it succeeds; but when the content parses to a JSON value that is
not an object, `load_data` raises an uncaught `AttributeError`. -/
theorem claim_C2_load_behaviour :
    (∀ t, load_data t .absent = .ok t) ∧
    (load_data initRaw .absent = .ok initRaw) ∧
    (∀ t, load_data t .ioError = .ok initRaw) ∧
    (∀ t, load_data t .parseError = .ok initRaw) ∧
    (∀ t fields, load_data t (.content (.obj fields)) =
      .ok ⟨jsonGet fields "expenses" (.arr []),
           jsonGet fields "categories" (.arr (DEFAULT_CATEGORIES.map .str))⟩) ∧
    (∀ t, load_data t (.content .null) = .error .attributeError) ∧
    (∀ t b, load_data t (.content (.bool b)) = .error .attributeError) ∧
    (∀ t q, load_data t (.content (.num q)) = .error .attributeError) ∧
    (∀ t s, load_data t (.content (.str s)) = .error .attributeError) ∧
    (∀ t xs, load_data t (.content (.arr xs)) = .error .attributeError) := by
  refine ⟨fun t => rfl, rfl, fun t => rfl, fun t => rfl, fun t fields => rfl,
    fun t => rfl, fun t b => rfl, fun t q => rfl, fun t s => rfl, fun t xs => rfl⟩

/-- Claim C8, counterexample: `add_expense` applies `float` to its
amount argument, and on the non-numeric string "abc" that coercion raises
`ValueError`, so no record is constructed or stored: the claim that every
amount input, including non-numeric ones, is stored without raising is
false. -/
theorem claim_C8_counterexample :
    add_expense_raw ⟨[], DEFAULT_CATEGORIES⟩ (.ofStr "abc") "Food & Dining" ""
      (some "2024-01-01") "2024-01-01" = .error .valueError := by
  have h : parseFloat "abc" = none := by decide
  simp [add_expense_raw, pyFloat, h]

/-- Claim C8 (amended): `add_expense` coerces its amount to a decimal
value and does not reject negative amounts: every numeric amount,
negative ones included, is stored as the coerced amount and the record is
returned without error; a string amount is stored exactly when it parses
as a decimal literal, and a non-numeric string makes the coercion raise
`ValueError`, so no record is stored for it. -/
theorem claim_C8_amount_coercion :
    (∀ (t : ExpenseTracker) (q : ℚ) (c d : String) (dt : Option String) (td : String),
      add_expense_raw t (.ofNum q) c d dt td = .ok (add_expense t q c d dt td) ∧
      ((add_expense t q c d dt td).2).amount = q ∧
      (add_expense t q c d dt td).1.expenses =
        t.expenses ++ [(add_expense t q c d dt td).2]) ∧
    (∀ (t : ExpenseTracker) (s : String) (c d : String) (dt : Option String) (td : String),
      add_expense_raw t (.ofStr s) c d dt td =
        match parseFloat s with
        | some q => .ok (add_expense t q c d dt td)
        | none => .error .valueError) := by
  constructor
  · exact fun t q c d dt td => ⟨rfl, rfl, rfl⟩
  · intro t s c d dt td
    unfold add_expense_raw pyFloat
    cases h : parseFloat s <;> simp [h]

/-- Claim C10: the filters are applied only on truthy arguments, so an
empty categories list behaves like an absent categories argument, an
empty-string date bound behaves like an absent bound, and calling the
filter with only such falsy arguments returns every record rather than
the empty subsequence. -/
theorem claim_C10_falsy_filters_ignored :
    ∀ (es : List Expense) (sd ed : Option String) (cs : Option (List String)),
    (get_filtered_expenses es sd ed (some []) = get_filtered_expenses es sd ed none) ∧
    (get_filtered_expenses es (some "") ed cs = get_filtered_expenses es none ed cs) ∧
    (get_filtered_expenses es sd (some "") cs = get_filtered_expenses es sd none cs) ∧
    (get_filtered_expenses es (some "") (some "") (some []) = es) := by
  exact fun es sd ed cs => ⟨rfl, rfl, rfl, rfl⟩

/-- Claim C6: `add_category` appends and reports true exactly when the
name is non-empty and not already present; otherwise it reports false and
leaves the whole state, in particular the category sequence and its
length, unchanged; the category sequence of the result always extends the
prior one, so the set never shrinks. -/
theorem claim_C6_add_category (t : ExpenseTracker) (c : String) :
    ((add_category t c).2 = true ↔ (c ≠ "" ∧ c ∉ t.categories)) ∧
    ((add_category t c).2 = true →
      (add_category t c).1.categories = t.categories ++ [c]) ∧
    ((add_category t c).2 = false → add_category t c = (t, false)) ∧
    (add_category t c).1.expenses = t.expenses ∧
    t.categories.Sublist (add_category t c).1.categories ∧
    t.categories.length ≤ (add_category t c).1.categories.length := by
  unfold add_category
  by_cases h : c ≠ "" ∧ c ∉ t.categories
  · rw [if_pos h]
    refine ⟨by simpa using h, fun _ => rfl, by simp, rfl,
      List.sublist_append_left _ _, by simp⟩
  · rw [if_neg h]
    exact ⟨by simpa using h, by simp, fun _ => rfl, rfl, List.Sublist.refl _, le_refl _⟩

/-- Claim C6, witness: adding the already-present default category
"Food & Dining" reports false and leaves the store unchanged. -/
theorem claim_C6_witness :
    add_category ⟨[], DEFAULT_CATEGORIES⟩ "Food & Dining" =
      (⟨[], DEFAULT_CATEGORIES⟩, false) :=
  (claim_C6_add_category ⟨[], DEFAULT_CATEGORIES⟩ "Food & Dining").2.2.1 (by decide)

/-- The first filter statement applies exactly the `keepStart` predicate. -/
theorem applyStart_eq_filter (sd : Option String) (l : List Expense) :
    applyStart sd l = l.filter (keepStart sd) := by
  cases sd with
  | none =>
    rw [show keepStart none = (fun _ : Expense => true) from rfl]
    simp [applyStart]
  | some s =>
    cases h : s.isEmpty with
    | true =>
      rw [show keepStart (some s) = (fun _ : Expense => true) from
        funext fun e => by simp [keepStart, h]]
      simp [applyStart, h]
    | false =>
      rw [show keepStart (some s) = (fun e : Expense => pyStrLe s e.date) from
        funext fun e => by simp [keepStart, h]]
      simp [applyStart, h]

/-- The second filter statement applies exactly the `keepEnd` predicate. -/
theorem applyEnd_eq_filter (ed : Option String) (l : List Expense) :
    applyEnd ed l = l.filter (keepEnd ed) := by
  cases ed with
  | none =>
    rw [show keepEnd none = (fun _ : Expense => true) from rfl]
    simp [applyEnd]
  | some s =>
    cases h : s.isEmpty with
    | true =>
      rw [show keepEnd (some s) = (fun _ : Expense => true) from
        funext fun e => by simp [keepEnd, h]]
      simp [applyEnd, h]
    | false =>
      rw [show keepEnd (some s) = (fun e : Expense => pyStrLe e.date s) from
        funext fun e => by simp [keepEnd, h]]
      simp [applyEnd, h]

/-- The third filter statement applies exactly the `keepCat` predicate. -/
theorem applyCats_eq_filter (cs : Option (List String)) (l : List Expense) :
    applyCats cs l = l.filter (keepCat cs) := by
  cases cs with
  | none =>
    rw [show keepCat none = (fun _ : Expense => true) from rfl]
    simp [applyCats]
  | some c =>
    cases h : c.isEmpty with
    | true =>
      rw [show keepCat (some c) = (fun _ : Expense => true) from
        funext fun e => by simp [keepCat, h]]
      simp [applyCats, h]
    | false =>
      rw [show keepCat (some c) = (fun e : Expense => c.contains e.category) from
        funext fun e => by simp [keepCat, h]]
      simp [applyCats, h]

/-- Claim C3: for every record sequence and every combination of the
optional arguments, the filter returns exactly the subsequence of the
input satisfying the active bounds (lower date bound, upper date bound,
category membership, each applied only when its argument is given and
truthy); being a `List.filter` of the input it preserves input order,
performs no sorting, and, as a function of its inputs, mutates nothing. -/
theorem claim_C3_filter_subsequence (es : List Expense) (sd ed : Option String)
    (cs : Option (List String)) :
    get_filtered_expenses es sd ed cs =
      es.filter (fun e => keepStart sd e && keepEnd ed e && keepCat cs e) ∧
    (get_filtered_expenses es sd ed cs).Sublist es ∧
    (∀ e : Expense, e ∈ get_filtered_expenses es sd ed cs ↔
      e ∈ es ∧ keepStart sd e = true ∧ keepEnd ed e = true ∧ keepCat cs e = true) := by
  have h1 : get_filtered_expenses es sd ed cs =
      es.filter (fun e => keepStart sd e && keepEnd ed e && keepCat cs e) := by
    unfold get_filtered_expenses
    rw [applyStart_eq_filter, applyEnd_eq_filter, applyCats_eq_filter,
      List.filter_filter, List.filter_filter]
    congr 1
    funext e
    cases keepStart sd e <;> cases keepEnd ed e <;> cases keepCat cs e <;> rfl
  refine ⟨h1, ?_, ?_⟩
  · rw [h1]
    exact List.filter_sublist es
  · intro e
    rw [h1, List.mem_filter]
    simp [and_assoc]

/-- `updateLoop` on a list with no matching id returns the list unchanged
and reports `false`. -/
theorem updateLoop_not_found (eid : Nat) (a : ℚ) (c d dt : String) :
    ∀ l : List Expense, (∀ e ∈ l, e.id ≠ eid) →
      updateLoop eid a c d dt l = (l, false) := by
  intro l
  induction l with
  | nil => intro _; rfl
  | cons e rest ih =>
    intro h
    have he : ¬(e.id = eid) := h e (List.mem_cons_self e rest)
    have hr : updateLoop eid a c d dt rest = (rest, false) :=
      ih (fun x hx => h x (List.mem_cons_of_mem e hx))
    simp [updateLoop, he, hr]

/-- `updateLoop` rewrites the first matching record in place and reports
`true`. -/
theorem updateLoop_found (eid : Nat) (a : ℚ) (c d dt : String) :
    ∀ (pre : List Expense) (x : Expense) (post : List Expense),
      (∀ y ∈ pre, y.id ≠ eid) → x.id = eid →
      updateLoop eid a c d dt (pre ++ x :: post) =
        (pre ++ { x with amount := a, category := c, description := d, date := dt } :: post,
         true) := by
  intro pre
  induction pre with
  | nil =>
    intro x post _ hx
    simp [updateLoop, hx]
  | cons y rest ih =>
    intro x post hpre hx
    have hy : ¬(y.id = eid) := hpre y (List.mem_cons_self y rest)
    have hr := ih x post (fun z hz => hpre z (List.mem_cons_of_mem y hz)) hx
    simp [updateLoop, hy, hr]

/-- `updateLoop` reports `true` whenever some record matches. -/
theorem updateLoop_hits (eid : Nat) (a : ℚ) (c d dt : String) :
    ∀ l : List Expense, (∃ e ∈ l, e.id = eid) →
      (updateLoop eid a c d dt l).2 = true := by
  intro l
  induction l with
  | nil => rintro ⟨e, he, _⟩; cases he
  | cons e rest ih =>
    rintro ⟨x, hx, hxid⟩
    by_cases he : e.id = eid
    · simp [updateLoop, he]
    · rcases List.mem_cons.mp hx with h | h
      · exact absurd (h ▸ hxid) he
      · have := ih ⟨x, h, hxid⟩
        simp [updateLoop, he, this]

/-- Claim C5: if a record with the given id exists, `update_expense`
overwrites the four mutable fields of the first such record (the id field
is untouched by the overwrite) and reports success; if no record matches,
it reports failure without raising and returns the store state entirely
unchanged. -/
theorem claim_C5_update_expense (t : ExpenseTracker) (eid : Nat) (a : ℚ)
    (c d dt : String) :
    ((∀ e ∈ t.expenses, e.id ≠ eid) → update_expense t eid a c d dt = (t, false)) ∧
    ((∃ e ∈ t.expenses, e.id = eid) → (update_expense t eid a c d dt).2 = true) ∧
    (∀ (pre : List Expense) (x : Expense) (post : List Expense),
      t.expenses = pre ++ x :: post → (∀ y ∈ pre, y.id ≠ eid) → x.id = eid →
      update_expense t eid a c d dt =
        (⟨pre ++ { x with amount := a, category := c, description := d, date := dt } :: post,
          t.categories⟩, true)) := by
  refine ⟨?_, ?_, ?_⟩
  · intro h
    unfold update_expense
    rw [updateLoop_not_found eid a c d dt t.expenses h]
  · intro h
    unfold update_expense
    simpa using updateLoop_hits eid a c d dt t.expenses h
  · intro pre x post hsplit hpre hx
    unfold update_expense
    rw [hsplit, updateLoop_found eid a c d dt pre x post hpre hx]

/-- Claim C5, witness: on a one-record store, updating id 1 overwrites
its four mutable fields and reports success, while updating the missing
id 99 reports failure and leaves the store unchanged. -/
theorem claim_C5_witness :
    update_expense ⟨[⟨1, 5, "Food & Dining", "x", "2024-01-01"⟩], DEFAULT_CATEGORIES⟩
        99 7 "Travel" "y" "2024-02-02" =
      (⟨[⟨1, 5, "Food & Dining", "x", "2024-01-01"⟩], DEFAULT_CATEGORIES⟩, false) ∧
    update_expense ⟨[⟨1, 5, "Food & Dining", "x", "2024-01-01"⟩], DEFAULT_CATEGORIES⟩
        1 7 "Travel" "y" "2024-02-02" =
      (⟨[⟨1, 7, "Travel", "y", "2024-02-02"⟩], DEFAULT_CATEGORIES⟩, true) := by
  constructor
  · exact (claim_C5_update_expense
      ⟨[⟨1, 5, "Food & Dining", "x", "2024-01-01"⟩], DEFAULT_CATEGORIES⟩
      99 7 "Travel" "y" "2024-02-02").1 (by decide)
  · exact (claim_C5_update_expense
      ⟨[⟨1, 5, "Food & Dining", "x", "2024-01-01"⟩], DEFAULT_CATEGORIES⟩
      1 7 "Travel" "y" "2024-02-02").2.2
      [] ⟨1, 5, "Food & Dining", "x", "2024-01-01"⟩ [] rfl (by decide) rfl

/-- Claim C9: in both the text report and the PDF table, each category
row carries the percentage `amount / total * 100`, guarded so that a
summary with total 0 yields percentage 0 for every row instead of a
division-by-zero error; the two renderers compute identical rows. -/
theorem claim_C9_percentage_rows (s : Summary) :
    (∀ c : String, ∀ a p : ℚ, (c, a, p) ∈ report_text_rows s →
      p = (if 0 < s.total then a / s.total * 100 else 0)) ∧
    (s.total = 0 → ∀ c : String, ∀ a p : ℚ, (c, a, p) ∈ report_text_rows s → p = 0) ∧
    pdf_table_rows s = report_text_rows s := by
  have main : ∀ c : String, ∀ a p : ℚ, (c, a, p) ∈ report_text_rows s →
      p = (if 0 < s.total then a / s.total * 100 else 0) := by
    intro c a p hmem
    unfold report_text_rows at hmem
    rw [List.mem_map] at hmem
    obtain ⟨x, _, heq⟩ := hmem
    cases heq
    rfl
  refine ⟨main, ?_, rfl⟩
  intro h0 c a p hmem
  rw [main c a p hmem, h0]
  simp

/-- Claim C9, witness: a summary with total 0 and one category row
renders that row with percentage 0. -/
theorem claim_C9_witness :
    ("Food & Dining", (0 : ℚ), (0 : ℚ)) ∈
      report_text_rows ⟨0, [("Food & Dining", 0)], 1⟩ ∧ (0 : ℚ) = 0 := by
  have hmem : ("Food & Dining", (0 : ℚ), (0 : ℚ)) ∈
      report_text_rows ⟨0, [("Food & Dining", 0)], 1⟩ := by
    unfold report_text_rows sortByAmountDesc
    rw [List.mem_map]
    exact ⟨("Food & Dining", 0), List.mem_mergeSort.mpr (by simp), by simp [pctOf]⟩
  exact ⟨hmem, (claim_C9_percentage_rows ⟨0, [("Food & Dining", 0)], 1⟩).2.1 rfl
    "Food & Dining" 0 0 hmem⟩

/-- Looking up a key after one accumulation step: the bumped key gains
`a` on top of its previous value (0 when absent), other keys are
untouched. -/
theorem lookup_bumpCategory (m : List (String × ℚ)) (c c2 : String) (a : ℚ) :
    (bumpCategory m c a).lookup c2 =
      if c2 = c then some ((m.lookup c).getD 0 + a) else m.lookup c2 := by
  induction m with
  | nil =>
    by_cases h : c2 = c
    · subst h
      simp [bumpCategory, List.lookup]
    · simp [bumpCategory, List.lookup, h,
        show (c2 == c) = false from beq_eq_false_iff_ne.mpr h]
  | cons hd tl ih =>
    obtain ⟨c0, a0⟩ := hd
    by_cases h0 : c0 = c
    · subst h0
      by_cases h2 : c2 = c0
      · subst h2
        simp [bumpCategory, List.lookup]
      · simp [bumpCategory, List.lookup, h2,
          show (c2 == c0) = false from beq_eq_false_iff_ne.mpr h2]
    · have hbump : bumpCategory ((c0, a0) :: tl) c a = (c0, a0) :: bumpCategory tl c a := by
        simp [bumpCategory, h0]
      rw [hbump]
      have hbeq2 : (c == c0) = false :=
        beq_eq_false_iff_ne.mpr (fun hh => h0 hh.symm)
      by_cases h2 : c2 = c0
      · subst h2
        have hcc : ¬c2 = c := fun hh => h0 (hh ▸ rfl)
        simp [List.lookup, hcc]
      · have hbeq : (c2 == c0) = false := beq_eq_false_iff_ne.mpr h2
        simp only [List.lookup, hbeq, hbeq2]
        exact ih

/-- One accumulation step adds exactly the bumped amount to the sum of
the per-category values. -/
theorem sum_bumpCategory (m : List (String × ℚ)) (c : String) (a : ℚ) :
    ((bumpCategory m c a).map Prod.snd).sum = (m.map Prod.snd).sum + a := by
  induction m with
  | nil => simp [bumpCategory]
  | cons hd tl ih =>
    obtain ⟨c0, a0⟩ := hd
    by_cases h : c0 = c <;> simp [bumpCategory, h, ih] <;> ring

/-- The accumulated per-category sums add up to the total of all
amounts, for any starting accumulator. -/
theorem foldBump_sum (es : List Expense) :
    ∀ m : List (String × ℚ),
      ((es.foldl (fun m e => bumpCategory m e.category e.amount) m).map Prod.snd).sum =
        (m.map Prod.snd).sum + (es.map Expense.amount).sum := by
  induction es with
  | nil => intro m; simp
  | cons e rest ih =>
    intro m
    simp only [List.foldl_cons]
    rw [ih, sum_bumpCategory]
    simp [add_assoc]

/-- Looking up a category in the accumulated mapping: present exactly
when it occurs in the records or was already in the accumulator, with
value equal to its prior value plus the sum of its amounts. -/
theorem foldBump_lookup (es : List Expense) :
    ∀ (m : List (String × ℚ)) (c : String),
      (es.foldl (fun m e => bumpCategory m e.category e.amount) m).lookup c =
        if c ∈ es.map Expense.category ∨ (m.lookup c).isSome
        then some ((m.lookup c).getD 0 + catSum c es) else none := by
  induction es with
  | nil =>
    intro m c
    cases h : m.lookup c <;> simp [catSum, h]
  | cons e rest ih =>
    intro m c
    simp only [List.foldl_cons]
    rw [ih]
    by_cases hc : c = e.category
    · subst hc
      have hcs : catSum e.category (e :: rest) = e.amount + catSum e.category rest := by
        simp [catSum]
      rw [lookup_bumpCategory]
      simp [hcs, add_assoc]
    · have hlk := lookup_bumpCategory m e.category c e.amount
      rw [if_neg hc] at hlk
      have hcs : catSum c (e :: rest) = catSum c rest := by
        unfold catSum
        simp [show (e.category == c) = false from
          beq_eq_false_iff_ne.mpr (fun hh => hc hh.symm)]
      rw [hlk, hcs]
      refine if_congr ?_ rfl rfl
      simp [hc]

/-- Claim C4: `get_summary` returns the sum of the amounts as total, the
record count, and a per-category mapping whose lookup yields the sum of
that category of records exactly when the category occurs (absent
categories are absent from the mapping); the empty sequence yields total
0, count 0 and an empty mapping, and the per-category values add up to
the total. -/
theorem claim_C4_get_summary (es : List Expense) :
    (get_summary es).total = (es.map Expense.amount).sum ∧
    (get_summary es).count = es.length ∧
    (∀ c : String, (get_summary es).by_category.lookup c =
      if c ∈ es.map Expense.category then some (catSum c es) else none) ∧
    get_summary [] = ⟨0, [], 0⟩ ∧
    ((get_summary es).by_category.map Prod.snd).sum = (get_summary es).total := by
  refine ⟨rfl, rfl, ?_, rfl, ?_⟩
  · intro c
    show (es.foldl (fun m e => bumpCategory m e.category e.amount) []).lookup c = _
    rw [foldBump_lookup]
    simp [List.lookup]
  · show ((es.foldl (fun m e => bumpCategory m e.category e.amount) []).map Prod.snd).sum = _
    rw [foldBump_sum]
    simp [get_summary]

/-- Every month has at least one day. -/
theorem daysInMonth_pos (y m : Nat) : 1 ≤ daysInMonth y m := by
  unfold daysInMonth
  split_ifs <;> norm_num

/-- December has 31 days in every year. -/
theorem daysInMonth_twelve (y : Nat) : daysInMonth y 12 = 31 := rfl

/-- Every year has at least 365 days. -/
theorem daysInYear_ge (y : Nat) : 365 ≤ daysInYear y := by
  unfold daysInYear
  split_ifs <;> norm_num

/-- Unfolding one month of the month-offset sum. -/
theorem daysBeforeMonth_step (y k : Nat) :
    daysBeforeMonth y (k + 2) = daysBeforeMonth y (k + 1) + daysInMonth y (k + 1) := by
  simp [daysBeforeMonth, List.range_succ]

/-- The twelve months of a year sum to the length of the year. -/
theorem monthsSum (y : Nat) :
    daysBeforeMonth y 12 + daysInMonth y 12 = daysInYear y := by
  cases h : isLeap y <;>
    simp [daysBeforeMonth, daysInMonth, daysInYear, h, List.range_succ]

/-- Stepping back one calendar day decrements the ordinal and stays
valid, as long as the ordinal stays at least 1. -/
theorem predDate_ordinal (d : Date) (hv : d.valid) (h2 : 2 ≤ toOrdinal d) :
    (predDate d).valid ∧ toOrdinal (predDate d) + 1 = toOrdinal d := by
  obtain ⟨hy, hm1, hm12, hd1, hdm⟩ := hv
  unfold predDate
  by_cases hday : 2 ≤ d.day
  · rw [if_pos hday]
    refine ⟨⟨hy, hm1, hm12, ?_, ?_⟩, ?_⟩
    · show 1 ≤ d.day - 1
      omega
    · show d.day - 1 ≤ daysInMonth d.year d.month
      omega
    · show daysBeforeYear d.year + daysBeforeMonth d.year d.month + (d.day - 1) + 1 =
        toOrdinal d
      unfold toOrdinal
      omega
  · rw [if_neg hday]
    have hd : d.day = 1 := by omega
    by_cases hm : 2 ≤ d.month
    · rw [if_pos hm]
      obtain ⟨k, hk⟩ : ∃ k, d.month = k + 2 := ⟨d.month - 2, by omega⟩
      refine ⟨⟨hy, ?_, ?_, daysInMonth_pos _ _, le_refl _⟩, ?_⟩
      · show 1 ≤ d.month - 1
        omega
      · show d.month - 1 ≤ 12
        omega
      · show daysBeforeYear d.year + daysBeforeMonth d.year (d.month - 1) +
            daysInMonth d.year (d.month - 1) + 1 =
          daysBeforeYear d.year + daysBeforeMonth d.year d.month + d.day
        have hstep := daysBeforeMonth_step d.year k
        rw [hk]
        have hred : k + 2 - 1 = k + 1 := rfl
        rw [hred]
        omega
    · rw [if_neg hm]
      have hm1e : d.month = 1 := by omega
      have hdbm : daysBeforeMonth d.year d.month = 0 := by
        rw [hm1e]
        rfl
      have hyge : 2 ≤ d.year := by
        by_contra hlt
        have hy1 : d.year = 1 := by omega
        have hone : toOrdinal d = 1 := by
          unfold toOrdinal
          rw [hdbm, hy1, hd]
          rfl
        omega
      obtain ⟨k, hk⟩ : ∃ k, d.year = k + 2 := ⟨d.year - 2, by omega⟩
      have hys : daysBeforeYear (k + 2) = daysBeforeYear (k + 1) + daysInYear (k + 1) := rfl
      have hmsum := monthsSum (k + 1)
      have hm12span : daysInMonth (k + 1) 12 = 31 := daysInMonth_twelve (k + 1)
      refine ⟨⟨?_, by norm_num, by norm_num, by norm_num, ?_⟩, ?_⟩
      · show 1 ≤ d.year - 1
        omega
      · show (31 : Nat) ≤ daysInMonth (d.year - 1) 12
        exact (daysInMonth_twelve (d.year - 1)).ge
      · show daysBeforeYear (d.year - 1) + daysBeforeMonth (d.year - 1) 12 + 31 + 1 =
          daysBeforeYear d.year + daysBeforeMonth d.year d.month + d.day
        rw [hdbm, hk]
        have hred : k + 2 - 1 = k + 1 := rfl
        rw [hred]
        omega

/-- Stepping back `n` days subtracts `n` from the ordinal and stays
valid, as long as the ordinal stays at least 1. -/
theorem subDays_spec (n : Nat) :
    ∀ d : Date, d.valid → n + 1 ≤ toOrdinal d →
      (subDays d n).valid ∧ toOrdinal (subDays d n) + n = toOrdinal d := by
  induction n with
  | zero =>
    intro d hv _
    exact ⟨hv, by simp [subDays]⟩
  | succ k ih =>
    intro d hv h
    have hp := predDate_ordinal d hv (by omega)
    have hrec := ih (predDate d) hp.1 (by omega)
    refine ⟨hrec.1, ?_⟩
    show toOrdinal (subDays (predDate d) k) + (k + 1) = toOrdinal d
    omega

/-- Subtracting the weekday offset lands on a Monday with the ordinal
decreased by exactly that offset. -/
theorem weekday_monday (d : Date) (hv : d.valid) (h1 : 1 ≤ toOrdinal d) :
    (subDays d (weekday d)).valid ∧ weekday (subDays d (weekday d)) = 0 ∧
      toOrdinal (subDays d (weekday d)) + weekday d = toOrdinal d := by
  have hwk : weekday d + 1 ≤ toOrdinal d := by
    unfold weekday
    omega
  have hs := subDays_spec (weekday d) d hv hwk
  refine ⟨hs.1, ?_, hs.2⟩
  have h2 := hs.2
  unfold weekday at h2 ⊢
  omega

/-- A valid date in year 2 or later has ordinal at least 366. -/
theorem year2_ordinal (d : Date) (hv : d.valid) (hy : 2 ≤ d.year) :
    366 ≤ toOrdinal d := by
  obtain ⟨k, hk⟩ : ∃ k, d.year = k + 2 := ⟨d.year - 2, by omega⟩
  have hstep : daysBeforeYear (k + 2) = daysBeforeYear (k + 1) + daysInYear (k + 1) := rfl
  have h365 := daysInYear_ge (k + 1)
  have hd1 : 1 ≤ d.day := hv.2.2.2.1
  unfold toOrdinal
  rw [hk]
  omega

/-- Claim C7: `get_date_range` is a function of the current date and the
selected label (plus the two entry strings for `Custom`), and resolves:
This Week to the most recent Monday (weekday 0, at most 6 days back)
through today; This Month to the first day of the current month through
today; Last Month to the first through the last calendar day of the
previous month; This Year to January 1 of the current year through today;
Last 3 and 6 Months to today minus 90 and 180 days through today; All
Time to no bounds; Custom to the caller-supplied literal strings,
unvalidated. -/
theorem claim_C7_get_date_range (today : Date) (cs ce : String)
    (hv : today.valid) (hy : 2 ≤ today.year) :
    (get_date_range "Custom" today cs ce = (some cs, some ce)) ∧
    (get_date_range "All Time" today cs ce = (none, none)) ∧
    (get_date_range "This Month" today cs ce =
      (some (fmtDate ⟨today.year, today.month, 1⟩), some (fmtDate today))) ∧
    (get_date_range "This Year" today cs ce =
      (some (fmtDate ⟨today.year, 1, 1⟩), some (fmtDate today))) ∧
    (∃ m : Date, get_date_range "This Week" today cs ce =
        (some (fmtDate m), some (fmtDate today)) ∧
      m.valid ∧ weekday m = 0 ∧ toOrdinal m + weekday today = toOrdinal today ∧
      weekday today < 7) ∧
    (∃ e : Date, get_date_range "Last Month" today cs ce =
        (some (fmtDate ⟨e.year, e.month, 1⟩), some (fmtDate e)) ∧
      e.valid ∧
      e.year = (if today.month = 1 then today.year - 1 else today.year) ∧
      e.month = (if today.month = 1 then 12 else today.month - 1) ∧
      e.day = daysInMonth e.year e.month) ∧
    (∃ a : Date, get_date_range "Last 3 Months" today cs ce =
        (some (fmtDate a), some (fmtDate today)) ∧
      a.valid ∧ toOrdinal a + 90 = toOrdinal today) ∧
    (∃ b : Date, get_date_range "Last 6 Months" today cs ce =
        (some (fmtDate b), some (fmtDate today)) ∧
      b.valid ∧ toOrdinal b + 180 = toOrdinal today) := by
  have hord := year2_ordinal today hv hy
  refine ⟨rfl, rfl, rfl, rfl, ?_, ?_, ?_, ?_⟩
  · obtain ⟨hvm, hmon, hsum⟩ := weekday_monday today hv (by omega)
    refine ⟨subDays today (weekday today), rfl, hvm, hmon, hsum, ?_⟩
    show (toOrdinal today + 6) % 7 < 7
    exact Nat.mod_lt _ (by norm_num)
  · obtain ⟨hy1, hm1, hm12, _, _⟩ := hv
    by_cases hm : today.month = 1
    · have hpred : predDate ⟨today.year, today.month, 1⟩ = ⟨today.year - 1, 12, 31⟩ := by
        simp [predDate, hm]
      refine ⟨⟨today.year - 1, 12, 31⟩, ?_, ?_, ?_, ?_, ?_⟩
      · have heq : get_date_range "Last Month" today cs ce =
            (some (fmtDate ⟨(predDate ⟨today.year, today.month, 1⟩).year,
                            (predDate ⟨today.year, today.month, 1⟩).month, 1⟩),
             some (fmtDate (predDate ⟨today.year, today.month, 1⟩))) := rfl
        rw [heq, hpred]
      · exact ⟨by show 1 ≤ today.year - 1; omega, by norm_num, by norm_num, by norm_num,
          (daysInMonth_twelve (today.year - 1)).ge⟩
      · rw [if_pos hm]
      · rw [if_pos hm]
      · exact (daysInMonth_twelve (today.year - 1)).symm
    · have hm2 : 2 ≤ today.month := by omega
      have hpred : predDate ⟨today.year, today.month, 1⟩ =
          ⟨today.year, today.month - 1, daysInMonth today.year (today.month - 1)⟩ := by
        simp [predDate, hm2]
      refine ⟨⟨today.year, today.month - 1, daysInMonth today.year (today.month - 1)⟩,
        ?_, ?_, ?_, ?_, ?_⟩
      · have heq : get_date_range "Last Month" today cs ce =
            (some (fmtDate ⟨(predDate ⟨today.year, today.month, 1⟩).year,
                            (predDate ⟨today.year, today.month, 1⟩).month, 1⟩),
             some (fmtDate (predDate ⟨today.year, today.month, 1⟩))) := rfl
        rw [heq, hpred]
      · exact ⟨hy1, by show 1 ≤ today.month - 1; omega,
          by show today.month - 1 ≤ 12; omega, daysInMonth_pos _ _, le_refl _⟩
      · rw [if_neg hm]
      · rw [if_neg hm]
      · rfl
  · have hsub := subDays_spec 90 today hv (by omega)
    exact ⟨subDays today 90, rfl, hsub.1, hsub.2⟩
  · have hsub := subDays_spec 180 today hv (by omega)
    exact ⟨subDays today 180, rfl, hsub.1, hsub.2⟩

/-- Claim C7, witness: on the concrete valid date 2024-03-15, All Time
resolves to no bounds and Custom returns the literal entry strings. -/
theorem claim_C7_witness :
    get_date_range "All Time" ⟨2024, 3, 15⟩ "2024-01-01" "2024-02-01" = (none, none) ∧
    get_date_range "Custom" ⟨2024, 3, 15⟩ "2024-01-01" "2024-02-01" =
      (some "2024-01-01", some "2024-02-01") := by
  have h := claim_C7_get_date_range ⟨2024, 3, 15⟩ "2024-01-01" "2024-02-01"
    (by decide) (by decide)
  exact ⟨h.2.1, h.1⟩

end ExpenseTrackerModel
